import Mathlib

/-!
Verification development for the etl-capnz CAP alert ingestion pipeline
(src/task.ts).  JavaScript numbers are modelled as exact rationals (all
claim-relevant literals are exactly representable in binary floating point,
so the modelled comparisons agree with the runtime ones); the JavaScript
values NaN, Infinity and -Infinity produced by parseFloat are modelled
explicitly by the JsFloat type.
-/

/-- A coordinate pair, in GeoJSON [lon, lat] order, as produced by the
polygon and circle parsers. -/
abbrev Point := ℚ × ℚ

/-- Result of the JavaScript parseFloat builtin: NaN, an infinity, or a
finite value. -/
inductive JsFloat where
  | nan
  | inf
  | negInf
  | num (q : ℚ)
deriving DecidableEq, Repr

/-- Strict less-than on parseFloat results, with JavaScript semantics:
every comparison involving NaN is false. -/
def JsFloat.ltb : JsFloat → JsFloat → Bool
  | .num a, .num b => a < b
  | .num _, .inf => true
  | .negInf, .num _ => true
  | .negInf, .inf => true
  | _, _ => false

/-- Less-or-equal on parseFloat results, with JavaScript semantics:
every comparison involving NaN is false. -/
def JsFloat.leb : JsFloat → JsFloat → Bool
  | .num a, .num b => a ≤ b
  | .num _, .inf => true
  | .negInf, .negInf => true
  | .negInf, .num _ => true
  | .negInf, .inf => true
  | .inf, .inf => true
  | _, _ => false

/-- Extract the finite value of a parseFloat result; non-finite values map
to 0 (only used on paths where range checks have excluded them). -/
def JsFloat.toQ : JsFloat → ℚ
  | .num q => q
  | _ => 0

/-- The characters stripped by JavaScript trim and matched by the regex
class backslash-s (ASCII part plus no-break space). -/
def isJsWs (c : Char) : Bool :=
  c = ' ' || c = '\t' || c = '\n' || c = '\r' ||
  c.toNat = 11 || c.toNat = 12 || c.toNat = 160

/-- JavaScript String.prototype.trim on the character list. -/
def jsTrimList (l : List Char) : List Char :=
  ((l.dropWhile isJsWs).reverse.dropWhile isJsWs).reverse

/-- JavaScript String.prototype.trim. -/
def jsTrim (s : String) : String :=
  String.mk (jsTrimList s.toList)

/-- Split a character list at every separator character (JavaScript
String.prototype.split with a single-character or character-class
separator): empty pieces are kept, and the empty string yields one empty
piece. -/
def splitChars (p : Char → Bool) (l : List Char) : List String :=
  let step := l.foldr
    (fun c (acc : List Char × List String) =>
      if p c then ([], String.mk acc.1 :: acc.2) else (c :: acc.1, acc.2))
    ([], [])
  String.mk step.1 :: step.2

/-- Math.abs on the rational model. -/
def mathAbs (q : ℚ) : ℚ := if q < 0 then -q else q

/-- Numeric value of a digit run (most significant first). -/
def digitsToNat (ds : List Char) : Nat :=
  ds.foldl (fun acc c => acc * 10 + (c.toNat - 48)) 0

/-- Parse the longest leading StrDecimalLiteral (without sign) of a
character list, per the ECMAScript parseFloat grammar: digits with an
optional fraction, or a fraction alone, then an optional well-formed
exponent.  Returns the exact decimal value as a numerator-denominator
pair (integer arithmetic, so the result stays kernel-computable), or none
when no digit is found. -/
def parseDecimalPrefix (cs : List Char) : Option (ℤ × ℕ) :=
  let intDs := cs.takeWhile Char.isDigit
  let rest1 := cs.drop intDs.length
  let fracDs :=
    match rest1 with
    | '.' :: r => r.takeWhile Char.isDigit
    | _ => []
  let rest2 :=
    match rest1 with
    | '.' :: r => r.drop (r.takeWhile Char.isDigit).length
    | _ => rest1
  if intDs.isEmpty && fracDs.isEmpty then
    none
  else
    -- mantissa = intPart + fracPart / 10 ^ fracLen, as a fraction
    let mantNum : ℤ := (digitsToNat intDs : ℤ) * (10 : ℤ) ^ fracDs.length + (digitsToNat fracDs : ℤ)
    let mantDen : ℕ := 10 ^ fracDs.length
    let expVal : ℤ :=
      match rest2 with
      | 'e' :: r | 'E' :: r =>
        match r with
        | '+' :: r2 => if (r2.takeWhile Char.isDigit).isEmpty then 0 else (digitsToNat (r2.takeWhile Char.isDigit) : ℤ)
        | '-' :: r2 => if (r2.takeWhile Char.isDigit).isEmpty then 0 else -(digitsToNat (r2.takeWhile Char.isDigit) : ℤ)
        | _ => if (r.takeWhile Char.isDigit).isEmpty then 0 else (digitsToNat (r.takeWhile Char.isDigit) : ℤ)
      | _ => 0
    -- apply the power-of-ten exponent on the appropriate side of the fraction
    if 0 ≤ expVal then
      some (mantNum * (10 : ℤ) ^ expVal.toNat, mantDen)
    else
      some (mantNum, mantDen * 10 ^ (-expVal).toNat)

/-- The JavaScript parseFloat builtin: skip leading whitespace, read an
optional sign, accept the Infinity literal, otherwise parse the longest
valid decimal prefix; NaN when nothing parses. -/
def jsParseFloat (s : String) : JsFloat :=
  let cs := s.toList.dropWhile isJsWs
  let neg :=
    match cs with
    | '-' :: _ => true
    | _ => false
  let cs2 :=
    match cs with
    | '+' :: r => r
    | '-' :: r => r
    | _ => cs
  if ['I', 'n', 'f', 'i', 'n', 'i', 't', 'y'].isPrefixOf cs2 then
    if neg then .negInf else .inf
  else
    match parseDecimalPrefix cs2 with
    | some nd => .num (mkRat (if neg then -nd.1 else nd.1) nd.2)
    | none => .nan

/-- Outcome of the per-token body of the parsePolygonString loop
(task.ts lines 214-246): empty tokens are skipped silently, bad tokens are
recorded as invalid, good tokens yield a [lon, lat] point. -/
inductive TokRes where
  | skip
  | invalid
  | pt (p : Point)
deriving DecidableEq, Repr

/-- Whether a token outcome is a point. -/
def TokRes.isPt : TokRes → Bool
  | .pt _ => true
  | _ => false

/-- Whether a token outcome is invalid. -/
def TokRes.isInvalid : TokRes → Bool
  | .invalid => true
  | _ => false

/-- The point of a token outcome, when there is one. -/
def TokRes.point : TokRes → Option Point
  | .pt p => some p
  | _ => none

/-- Classify one whitespace-delimited token of a CAP polygon string,
following task.ts lines 214-246: require a comma, exactly two components,
both non-blank, both parsing to non-NaN floats, latitude in [-90, 90] and
longitude in [-180, 180]; on success emit [lon, lat]. -/
def tokRes (pair : String) : TokRes :=
  if pair = "" then .skip
  else if ¬ pair.toList.contains ',' then .invalid
  else
    let parts := splitChars (fun c => c = ',') pair.toList
    if parts.length ≠ 2 then .invalid
    else
      let latStr := parts.headD ""
      let lonStr := (parts.drop 1).headD ""
      if jsTrim latStr = "" || jsTrim lonStr = "" then .invalid
      else
        let lat := jsParseFloat (jsTrim latStr)
        let lon := jsParseFloat (jsTrim lonStr)
        if lat = .nan || lon = .nan then .invalid
        else if lat.ltb (.num (-90)) || (JsFloat.num 90).ltb lat ||
                lon.ltb (.num (-180)) || (JsFloat.num 180).ltb lon then .invalid
        else .pt (lon.toQ, lat.toQ)

/-- The parsePolygonString accumulation loop: collect valid points and
invalid tokens in input order. -/
def polyLoop : List String → List Point × List String
  | [] => ([], [])
  | t :: rest =>
    let r := polyLoop rest
    match tokRes t with
    | .skip => r
    | .invalid => (r.1, t :: r.2)
    | .pt p => (p :: r.1, r.2)

/-- parsePolygonString (task.ts lines 200-262): split the trimmed string
on whitespace, classify every token, fail when any token is invalid
(listing up to three offenders, with an ellipsis when more exist) or when
fewer than three valid points remain, close the ring if needed, and return
it as a one-ring list. -/
def parsePolygonString (polygonStr : String) : Except String (List (List Point)) :=
  if polygonStr = "" then .error "Empty or invalid polygon string"
  else
    let trimmed := jsTrim polygonStr
    if trimmed = "" then .error "Empty polygon string after trimming"
    else
      let coordPairs := splitChars isJsWs trimmed.toList
      let r := polyLoop coordPairs
      let points := r.1
      let invalidPairs := r.2
      if invalidPairs ≠ [] then
        .error ("Invalid coordinate pairs: " ++ String.intercalate ", " (invalidPairs.take 3) ++
          (if 3 < invalidPairs.length then "..." else ""))
      else if points.length < 3 then
        .error ("Insufficient valid points: " ++ toString points.length ++ " (minimum 3 required)")
      else
        match points with
        | [] => .ok [points]
        | p0 :: _ =>
          if p0 = points.getLastD p0 then .ok [points]
          else .ok [points ++ [p0]]

/-- Parsed circle data: a [lon, lat] center and the parsed radius (kept as
a JsFloat, since the source only checks that it is positive). -/
structure CircleData where
  center : Point
  radius : JsFloat
deriving DecidableEq, Repr

/-- parseCircleString (task.ts lines 264-283): split the trimmed string on
single spaces, split the first part on a comma into latitude and longitude
(extra components are ignored), parse the second part as the radius, and
succeed only when all three parse, coordinates are in range and the radius
is positive; never fails with an error. -/
def parseCircleString (circleStr : String) : Option CircleData :=
  if circleStr = "" then none
  else
    let parts := splitChars (fun c => c = ' ') (jsTrimList circleStr.toList)
    match parts with
    | p0 :: p1 :: _ =>
      let latlon := splitChars (fun c => c = ',') p0.toList
      let radius := jsParseFloat p1
      match latlon with
      | latStr :: lonStr :: _ =>
        if latStr ≠ "" ∧ lonStr ≠ "" then
          let lat := jsParseFloat latStr
          let lon := jsParseFloat lonStr
          if lat ≠ .nan ∧ lon ≠ .nan ∧ radius ≠ .nan ∧
              (JsFloat.num (-90)).leb lat ∧ lat.leb (.num 90) ∧
              (JsFloat.num (-180)).leb lon ∧ lon.leb (.num 180) ∧
              (JsFloat.num 0).ltb radius then
            some ⟨(lon.toQ, lat.toQ), radius⟩
          else none
        else none
      | _ => none
    | _ => none

/-- Decidable equality for polygon-parser results, so concrete runs can be
checked by the kernel. -/
instance instDecEqExceptRing : DecidableEq (Except String (List (List Point))) := fun a b =>
  match a, b with
  | .ok x, .ok y => if h : x = y then .isTrue (by rw [h]) else .isFalse (by simp [h])
  | .error e, .error f => if h : e = f then .isTrue (by rw [h]) else .isFalse (by simp [h])
  | .ok _, .error _ => .isFalse (by simp)
  | .error _, .ok _ => .isFalse (by simp)

/-- The shoelace accumulation of calculatePolygonCentroid (task.ts lines
296-306): running sums of the cross terms, the x-moment terms and the
y-moment terms over consecutive vertex pairs. -/
def shoelace : List Point → ℚ × ℚ × ℚ
  | p0 :: p1 :: rest =>
    let r := shoelace (p1 :: rest)
    let a := p0.1 * p1.2 - p1.1 * p0.2
    (r.1 + a, r.2.1 + (p0.1 + p1.1) * a, r.2.2 + (p0.2 + p1.2) * a)
  | _ => (0, 0, 0)

/-- calculatePolygonCentroid (task.ts lines 285-323): signed-area centroid
of the first ring, with an arithmetic-mean fallback when the area is
degenerate, and (0, 0) for rings of fewer than three points. -/
def calculatePolygonCentroid (coordinates : List (List Point)) : Point :=
  let points := coordinates.headD []
  if points.length < 3 then (0, 0)
  else
    let s := shoelace points
    let area := s.1 * (1 / 2)
    if mathAbs area < 1 / 10000000000 then
      let sx := points.foldl (fun acc p => acc + p.1) 0
      let sy := points.foldl (fun acc p => acc + p.2) 0
      (sx / points.length, sy / points.length)
    else
      (s.2.1 / (6 * area), s.2.2 / (6 * area))

/-! ### SHA-256 (the createHash algorithm used for certificate fingerprints)

A byte-level model of FIPS 180-4 SHA-256 over lists of byte values,
with 32-bit words as naturals reduced modulo 2 ^ 32. -/

/-- 2 ^ 32, the word modulus. -/
def word32Mod : Nat := 4294967296

/-- Right rotation of a 32-bit word. -/
def rotr32 (x n : Nat) : Nat :=
  ((x >>> n) ||| ((x <<< (32 - n)) % word32Mod))

/-- The big sigma-0 word function of SHA-256. -/
def bSig0 (x : Nat) : Nat := rotr32 x 2 ^^^ rotr32 x 13 ^^^ rotr32 x 22

/-- The big sigma-1 word function of SHA-256. -/
def bSig1 (x : Nat) : Nat := rotr32 x 6 ^^^ rotr32 x 11 ^^^ rotr32 x 25

/-- The small sigma-0 word function of SHA-256. -/
def sSig0 (x : Nat) : Nat := rotr32 x 7 ^^^ rotr32 x 18 ^^^ (x >>> 3)

/-- The small sigma-1 word function of SHA-256. -/
def sSig1 (x : Nat) : Nat := rotr32 x 17 ^^^ rotr32 x 19 ^^^ (x >>> 10)

/-- The choice word function of SHA-256 (not-x is xor with the all-ones
32-bit word). -/
def chWord (x y z : Nat) : Nat := (x &&& y) ^^^ ((x ^^^ 4294967295) &&& z)

/-- The majority word function of SHA-256. -/
def majWord (x y z : Nat) : Nat := (x &&& y) ^^^ (x &&& z) ^^^ (y &&& z)

/-- The 64 SHA-256 round constants of FIPS 180-4 (decimal). -/
def sha256K : List Nat :=
  [1116352408, 1899447441, 3049323471, 3921009573,
   961987163, 1508970993, 2453635748, 2870763221,
   3624381080, 310598401, 607225278, 1426881987,
   1925078388, 2162078206, 2614888103, 3248222580,
   3835390401, 4022224774, 264347078, 604807628,
   770255983, 1249150122, 1555081692, 1996064986,
   2554220882, 2821834349, 2952996808, 3210313671,
   3336571891, 3584528711, 113926993, 338241895,
   666307205, 773529912, 1294757372, 1396182291,
   1695183700, 1986661051, 2177026350, 2456956037,
   2730485921, 2820302411, 3259730800, 3345764771,
   3516065817, 3600352804, 4094571909, 275423344,
   430227734, 506948616, 659060556, 883997877,
   958139571, 1322822218, 1537002063, 1747873779,
   1955562222, 2024104815, 2227730452, 2361852424,
   2428436474, 2756734187, 3204031479, 3329325298]

/-- Working state of the SHA-256 compression function (registers a-h). -/
structure Sha256State where
  a : Nat
  b : Nat
  c : Nat
  d : Nat
  e : Nat
  f : Nat
  g : Nat
  h : Nat
deriving DecidableEq, Repr

/-- The SHA-256 initial hash value of FIPS 180-4 (decimal). -/
def sha256Init : Sha256State :=
  ⟨1779033703, 3144134277, 1013904242, 2773480762,
   1359893119, 2600822924, 528734635, 1541459225⟩

/-- One SHA-256 round, consuming one schedule word and round constant. -/
def sha256Round (st : Sha256State) (wk : Nat × Nat) : Sha256State :=
  let t1 := (st.h + bSig1 st.e + chWord st.e st.f st.g + wk.2 + wk.1) % word32Mod
  let t2 := (bSig0 st.a + majWord st.a st.b st.c) % word32Mod
  { a := (t1 + t2) % word32Mod
    b := st.a
    c := st.b
    d := st.c
    e := (st.d + t1) % word32Mod
    f := st.e
    g := st.f
    h := st.g }

/-- Pack groups of four bytes into big-endian 32-bit words (fuel-driven so
that the kernel can evaluate it; the fuel is the list length). -/
def bytesToWords : Nat → List Nat → List Nat
  | 0, _ => []
  | _, [] => []
  | fuel + 1, b0 :: rest =>
    match rest with
    | b1 :: b2 :: b3 :: rest2 =>
      (((b0 * 256 + b1) * 256 + b2) * 256 + b3) :: bytesToWords fuel rest2
    | _ => []

/-- Extend the reversed message-schedule accumulator by the given number
of words (the head of the accumulator is the most recent word). -/
def scheduleExtend : Nat → List Nat → List Nat
  | 0, acc => acc
  | n + 1, acc =>
    let w := (sSig1 (acc.getD 1 0) + acc.getD 6 0 + sSig0 (acc.getD 14 0) + acc.getD 15 0) % word32Mod
    scheduleExtend n (w :: acc)

/-- The 64-word message schedule of one 64-byte block. -/
def messageSchedule (block : List Nat) : List Nat :=
  (scheduleExtend 48 (bytesToWords block.length block).reverse).reverse

/-- The SHA-256 compression function on one 64-byte block. -/
def sha256Compress (st : Sha256State) (block : List Nat) : Sha256State :=
  let w := messageSchedule block
  let fin := (w.zip sha256K).foldl (fun s wk => sha256Round s (wk.2, wk.1)) st
  { a := (st.a + fin.a) % word32Mod
    b := (st.b + fin.b) % word32Mod
    c := (st.c + fin.c) % word32Mod
    d := (st.d + fin.d) % word32Mod
    e := (st.e + fin.e) % word32Mod
    f := (st.f + fin.f) % word32Mod
    g := (st.g + fin.g) % word32Mod
    h := (st.h + fin.h) % word32Mod }

/-- SHA-256 padding: append 0x80, zeros to 56 mod 64, and the bit length
as eight big-endian bytes. -/
def sha256Pad (msg : List Nat) : List Nat :=
  let len := msg.length
  let padLen := (119 - len % 64) % 64
  let bitLen := 8 * len
  msg ++ [128] ++ List.replicate padLen 0 ++
    [(bitLen >>> 56) % 256, (bitLen >>> 48) % 256, (bitLen >>> 40) % 256, (bitLen >>> 32) % 256,
     (bitLen >>> 24) % 256, (bitLen >>> 16) % 256, (bitLen >>> 8) % 256, bitLen % 256]

/-- Cut a padded message into 64-byte blocks (fuel-driven). -/
def chunk64 : Nat → List Nat → List (List Nat)
  | 0, _ => []
  | _, [] => []
  | fuel + 1, l => l.take 64 :: chunk64 fuel (l.drop 64)

/-- The four big-endian bytes of a 32-bit word. -/
def word4 (w : Nat) : List Nat :=
  [w / 16777216 % 256, w / 65536 % 256, w / 256 % 256, w % 256]

/-- The 32-byte digest extracted from a final SHA-256 state. -/
def digestOf (s : Sha256State) : List Nat :=
  word4 s.a ++ word4 s.b ++ word4 s.c ++ word4 s.d ++ word4 s.e ++ word4 s.f ++ word4 s.g ++ word4 s.h

/-- SHA-256 of a byte list. -/
def sha256 (msg : List Nat) : List Nat :=
  let padded := sha256Pad msg
  digestOf ((chunk64 padded.length padded).foldl sha256Compress sha256Init)

/-! ### Base64 decoding and certificate cleaning -/

/-- Value of one base64 alphabet character. -/
def b64Val (c : Char) : Option Nat :=
  if 65 ≤ c.toNat ∧ c.toNat ≤ 90 then some (c.toNat - 65)
  else if 97 ≤ c.toNat ∧ c.toNat ≤ 122 then some (c.toNat - 71)
  else if 48 ≤ c.toNat ∧ c.toNat ≤ 57 then some (c.toNat + 4)
  else if c = '+' then some 62
  else if c = '/' then some 63
  else none

/-- Decode base64 characters in groups of four (fuel-driven), per the
forgiving-base64 algorithm implemented by atob: a trailing group of two
or three characters contributes one or two bytes, a trailing group of one
character or any non-alphabet character is an error. -/
def b64Groups : Nat → List Char → Option (List Nat)
  | _, [] => some []
  | 0, _ => none
  | fuel + 1, c0 :: c1 :: rest =>
    match b64Val c0, b64Val c1 with
    | some v0, some v1 =>
      match rest with
      | c2 :: c3 :: rest2 =>
        match b64Val c2, b64Val c3 with
        | some v2, some v3 =>
          let n := ((v0 * 64 + v1) * 64 + v2) * 64 + v3
          match b64Groups fuel rest2 with
          | some bs => some ([n >>> 16, (n >>> 8) % 256, n % 256] ++ bs)
          | none => none
        | _, _ => none
      | [c2] =>
        match b64Val c2 with
        | some v2 =>
          let n := (v0 * 64 + v1) * 64 + v2
          some [n >>> 10, (n >>> 2) % 256]
        | none => none
      | [] => some [(v0 * 64 + v1) >>> 4]
    | _, _ => none
  | _, [_] => none

/-- The atob builtin on an already whitespace-free string: strip up to two
trailing padding characters when the length is a multiple of four, then
decode; none models the DOMException raised on malformed input. -/
def b64Decode (s : String) : Option (List Nat) :=
  let cs := s.toList
  let cs2 :=
    if cs.length % 4 = 0 then
      match cs.reverse with
      | '=' :: '=' :: r => r.reverse
      | '=' :: r => r.reverse
      | _ => cs
    else cs
  b64Groups cs2.length cs2

/-- Remove every occurrence of the five-character entity sequence
matched by the first replace in task.ts line 428 (left to right, without
rescanning the output, as the JavaScript replace does). -/
def removeCrEntity : Nat → List Char → List Char
  | 0, l => l
  | _, [] => []
  | fuel + 1, c :: rest =>
    if ['&', '#', '1', '3', ';'].isPrefixOf (c :: rest) then
      removeCrEntity fuel ((c :: rest).drop 5)
    else
      c :: removeCrEntity fuel rest

/-- The certificate cleanup of task.ts line 428: drop the carriage-return
entities, then every whitespace character. -/
def cleanCert (s : String) : String :=
  String.mk ((removeCrEntity s.toList.length s.toList).filter (fun c => !isJsWs c))

/-- The byte values of an ASCII string (the interpretation of the spec
phrase about hashing the cleaned base64 string bytes directly). -/
def strBytes (s : String) : List Nat := s.toList.map Char.toNat

/-- One uppercase hexadecimal digit. -/
def hexDigitChar (n : Nat) : Char :=
  if n < 10 then Char.ofNat (48 + n) else Char.ofNat (55 + n)

/-- Two uppercase hexadecimal digits of one byte. -/
def byteHex (b : Nat) : String :=
  String.mk [hexDigitChar (b / 16 % 16), hexDigitChar (b % 16)]

/-- Render a digest the way task.ts lines 434-435 do: uppercase hex,
regrouped two characters at a time and joined with colons (pairing the
hex characters by byte). -/
def renderFingerprint (bytes : List Nat) : String :=
  String.intercalate ":" (bytes.map byteHex)

/-! ### Signature metadata extraction (task.ts lines 422-461) -/

/-- Certificate metadata extracted from the signature block. -/
structure SignatureInfo where
  issuer : String
  subject : String
  validUntil : String
  fingerprint : String
deriving DecidableEq, Repr

/-- Fallback issuer when certificate parsing fails wholesale. -/
def certDefaultIssuer : String := "cap.metservice.com"

/-- Fallback subject (the known issuing authority). -/
def certDefaultSubject : String := "METEOROLOGICAL SERVICE OF NEW ZEALAND LIMITED"

/-- Fallback expiry date. -/
def certDefaultValidUntil : String := "2025-10-23"

/-- First match of a pattern followed by a nonempty capture of characters
up to a stop character, scanning left to right with single-character
restarts, like the CN= and O= regular expressions of task.ts. -/
def scanCapture (pat : List Char) (stop : Char) : Nat → List Char → Option String
  | 0, _ => none
  | _, [] => none
  | fuel + 1, c :: rest =>
    if pat.isPrefixOf (c :: rest) then
      let run := ((c :: rest).drop pat.length).takeWhile (fun x => x ≠ stop)
      if 1 ≤ run.length then some (String.mk run)
      else scanCapture pat stop fuel rest
    else scanCapture pat stop fuel rest

/-- All non-overlapping matches of twelve digits followed by Z (the
ASN.1 UTC-time regular expression of task.ts line 441), left to right. -/
def dateScan : Nat → List Char → List String
  | 0, _ => []
  | _, [] => []
  | fuel + 1, c :: rest =>
    let l := c :: rest
    if (l.take 12).length = 12 ∧ (l.take 12).all Char.isDigit ∧ l.getD 12 ' ' = 'Z' then
      String.mk (l.take 13) :: dateScan fuel (l.drop 13)
    else dateScan fuel rest

/-- Render a matched UTC time as the 20YY-MM-DD string of task.ts
line 448. -/
def formatValidUntil (m : String) : String :=
  let cs := m.toList
  "20" ++ String.mk (cs.take 2) ++ "-" ++ String.mk ((cs.drop 2).take 2) ++ "-" ++
    String.mk ((cs.drop 4).take 2)

/-- The signature record built by task.ts lines 426-460 from a certificate
section: clean and decode the base64 text (a decode failure triggers the
catch block and the full fallback record), hash the decoded bytes with
SHA-256 for the fingerprint (hash.update with base64 input encoding hashes
the decoded bytes), and extract issuer, subject and the second UTC
timestamp from the decoded certificate text. -/
def signatureOfCert (certSection : String) : SignatureInfo :=
  match b64Decode (cleanCert certSection) with
  | none =>
    ⟨certDefaultIssuer, certDefaultSubject, certDefaultValidUntil, "Unknown"⟩
  | some bytes =>
    let certData : List Char := bytes.map (fun b => Char.ofNat b)
    let fingerprint := renderFingerprint (sha256 bytes)
    let issuer :=
      match scanCapture ['C', 'N', '='] ',' certData.length certData with
      | some s => jsTrim s
      | none => "MetService"
    let subject :=
      match scanCapture ['O', '='] ',' certData.length certData with
      | some s => jsTrim s
      | none => certDefaultSubject
    let dates := dateScan certData.length certData
    let validUntil :=
      match dates.drop 1 with
      | d :: _ => formatValidUntil d
      | [] => certDefaultValidUntil
    ⟨issuer, subject, validUntil, fingerprint⟩

/-! ### The CAP XML parse model (task.ts parseXML, lines 353-497)

The XML parser output is abstracted as optional element text: a missing
element is none, and fast-xml-parser produced text otherwise.  A polygon
element that appears once parses to a single string and to an array of
strings when repeated, which the sum type records. -/

/-- One parameter entry (valueName and value children may be absent). -/
structure RawParam where
  valueName : Option String
  value : Option String
deriving DecidableEq, Repr

/-- The area element: polygon is a single string or an array of strings
depending on how often the element appears. -/
structure RawArea where
  areaDesc : Option String
  polygon : Option (String ⊕ List String)
  circle : Option String
deriving DecidableEq, Repr

/-- The info element (scalar children as optional text; a repeated
parameter element is a list, a single one a one-element list). -/
structure RawInfo where
  category : Option String
  event : Option String
  urgency : Option String
  severity : Option String
  certainty : Option String
  senderName : Option String
  headline : Option String
  description : Option String
  instruction : Option String
  responseType : Option String
  onset : Option String
  expires : Option String
  web : Option String
  parameter : Option (List RawParam)
  area : Option RawArea
deriving DecidableEq, Repr

/-- The alert root element; certSection is the text reached through
Signature.KeyInfo.X509Data.X509Certificate. -/
structure RawAlert where
  identifier : Option String
  sender : Option String
  sent : Option String
  status : Option String
  msgType : Option String
  scope : Option String
  info : Option RawInfo
  certSection : Option String
deriving DecidableEq, Repr

/-- The ColourCode name-to-hex table of task.ts lines 410-416. -/
def colorMapLookup : String → Option String
  | "Red" => some "#FF0000"
  | "Orange" => some "#FF8918"
  | "Yellow" => some "#FFFF00"
  | "Green" => some "#00FF00"
  | "Blue" => some "#0000FF"
  | _ => none

/-- Normalized area record of a parsed alert.  The polygon field folds the
JavaScript truthiness convention of task.ts: the parser stores the raw
polygon (defaulting falsy values to the empty string) and control line 578
branches on its truthiness, so none here stands for an absent or
empty-string polygon and some for a nonempty single string (one-element
list) or an array. -/
structure CAPAlertArea where
  areaDesc : String
  polygon : Option (List String)
  circle : String
deriving DecidableEq, Repr

/-- Normalized info record of a parsed alert. -/
structure CAPAlertInfo where
  category : String
  event : String
  urgency : String
  severity : String
  certainty : String
  senderName : String
  headline : String
  description : String
  instruction : String
  responseType : String
  onset : String
  expires : String
  web : String
  area : CAPAlertArea
  colorCode : Option String
deriving DecidableEq, Repr

/-- Normalized alert record (the CAPAlert interface of task.ts). -/
structure CAPAlert where
  identifier : String
  sender : String
  sent : String
  status : String
  msgType : String
  scope : String
  info : CAPAlertInfo
  signature : Option SignatureInfo
deriving DecidableEq, Repr

/-- parseXML on the parsed document structure (task.ts lines 358-492):
null when the alert element is missing, the info element is missing, or
any of identifier, sender, sent defaults to the empty string; otherwise
every scalar field defaults to the empty string, colorCode prefers a
ColourCodeHex parameter over a mapped ColourCode name, and the signature
block is extracted when a nonempty certificate section is present. -/
def parseXMLModel (parsedAlert : Option RawAlert) : Option CAPAlert :=
  match parsedAlert with
  | none => none
  | some alert =>
    let identifier := alert.identifier.getD ""
    let sender := alert.sender.getD ""
    let sent := alert.sent.getD ""
    match alert.info with
    | none => none
    | some info =>
      if identifier = "" ∨ sender = "" ∨ sent = "" then none
      else
        let colorCode : Option String :=
          match info.parameter with
          | none => none
          | some params =>
            match params.find? (fun p => p.valueName = some "ColourCodeHex") with
            | some hexParam => hexParam.value
            | none =>
              match params.find? (fun p => p.valueName = some "ColourCode") with
              | some colorParam => colorParam.value.bind colorMapLookup
              | none => none
        let polygonEff : Option (List String) :=
          match info.area.bind (fun a => a.polygon) with
          | none => none
          | some (.inl s) => if s = "" then none else some [s]
          | some (.inr l) => some l
        let signature : Option SignatureInfo :=
          match alert.certSection with
          | some c => if c = "" then none else some (signatureOfCert c)
          | none => none
        some
          { identifier := identifier
            sender := sender
            sent := sent
            status := alert.status.getD ""
            msgType := alert.msgType.getD ""
            scope := alert.scope.getD ""
            info :=
              { category := (info.category).getD ""
                event := (info.event).getD ""
                urgency := (info.urgency).getD ""
                severity := (info.severity).getD ""
                certainty := (info.certainty).getD ""
                senderName := (info.senderName).getD ""
                headline := (info.headline).getD ""
                description := (info.description).getD ""
                instruction := (info.instruction).getD ""
                responseType := (info.responseType).getD ""
                onset := (info.onset).getD ""
                expires := (info.expires).getD ""
                web := (info.web).getD ""
                area :=
                  { areaDesc := ((info.area.bind (fun a => a.areaDesc)).getD "")
                    polygon := polygonEff
                    circle := ((info.area.bind (fun a => a.circle)).getD "") }
                colorCode := colorCode }
            signature := signature }

/-! ### Feed link extraction (task.ts parseFeed, lines 499-525) -/

/-- Substring search scanning every suffix (fuel-driven), modelling the
JavaScript String.prototype.includes. -/
def hasSubAux (pat : List Char) : Nat → List Char → Bool
  | _, [] => pat.isEmpty
  | 0, _ => false
  | fuel + 1, c :: rest => pat.isPrefixOf (c :: rest) || hasSubAux pat fuel rest

/-- JavaScript includes on strings. -/
def strIncludes (s pat : String) : Bool :=
  hasSubAux pat.toList s.toList.length s.toList

/-- isCapAlertLink (task.ts lines 499-501). -/
def isCapAlertLink (link : String) : Bool :=
  strIncludes link "/cap/" || strIncludes link "alert"

/-- Scan for RSS links: every match of an open link tag, a run of one to
one thousand non-angle characters, and a closing link tag, resuming after
each match and advancing one character on failure, exactly as matchAll
does with the RSS regular expression of task.ts line 507 (the capture
excludes the angle bracket, so backtracking always yields the maximal
run). -/
def rssScan : Nat → List Char → List String
  | 0, _ => []
  | _, [] => []
  | fuel + 1, c :: rest =>
    if ['<', 'l', 'i', 'n', 'k', '>'].isPrefixOf (c :: rest) then
      let after := (c :: rest).drop 6
      let run := after.takeWhile (fun x => x ≠ '<')
      let rest2 := after.dropWhile (fun x => x ≠ '<')
      if 1 ≤ run.length ∧ run.length ≤ 1000 ∧ ['<', '/', 'l', 'i', 'n', 'k', '>'].isPrefixOf rest2 then
        String.mk run :: rssScan fuel (rest2.drop 7)
      else rssScan fuel rest
    else rssScan fuel rest

/-- Attempt the tail of the Atom link regular expression at a position
just before href: the href literal, an opening quote, a run of one to one
thousand non-quote characters, a closing quote (either kind), and a later
closing angle bracket; returns the captured run and the suffix after the
match end. -/
def atomCont (l : List Char) : Option (String × List Char) :=
  match l with
  | 'h' :: 'r' :: 'e' :: 'f' :: '=' :: q :: rest =>
    if q = '"' ∨ q = Char.ofNat 39 then
      let run := rest.takeWhile (fun x => x ≠ '"' ∧ x ≠ Char.ofNat 39)
      let rest2 := rest.dropWhile (fun x => x ≠ '"' ∧ x ≠ Char.ofNat 39)
      match rest2 with
      | _ :: rest3 =>
        if 1 ≤ run.length ∧ run.length ≤ 1000 then
          match rest3.dropWhile (fun x => x ≠ '>') with
          | _ :: rest4 => some (String.mk run, rest4)
          | [] => none
        else none
      | [] => none
    else none
  | _ => none

/-- Greedy backtracking over the one-or-more non-angle characters between
the link literal and href: try the longest split first, as the regular
expression engine does. -/
def atomBack (m : List Char) : Nat → Option (String × List Char)
  | 0 => none
  | k + 1 =>
    match atomCont (m.drop (k + 1)) with
    | some r => some r
    | none => atomBack m k

/-- Scan for Atom links with the regular expression of task.ts line 516,
resuming after each match and advancing one character on failure. -/
def atomScan : Nat → List Char → List String
  | 0, _ => []
  | _, [] => []
  | fuel + 1, c :: rest =>
    if ['<', 'l', 'i', 'n', 'k'].isPrefixOf (c :: rest) then
      let m := (c :: rest).drop 5
      let region := m.takeWhile (fun x => x ≠ '>')
      match atomBack m region.length with
      | some (g, rest4) => g :: atomScan fuel rest4
      | none => atomScan fuel rest
    else atomScan fuel rest

/-- First-seen deduplication, as the Set-spread on task.ts line 524
produces (seen accumulates already-emitted links). -/
def dedupFirstAux (seen : List String) : List String → List String
  | [] => []
  | x :: rest =>
    if x ∈ seen then dedupFirstAux seen rest
    else x :: dedupFirstAux (x :: seen) rest

/-- First-seen deduplication of a link list. -/
def dedupFirst (l : List String) : List String :=
  dedupFirstAux [] l

/-- parseFeed (task.ts lines 503-525): collect trimmed RSS matches passing
the CAP-link filter, then trimmed Atom matches passing the filter, and
deduplicate keeping first occurrences. -/
def parseFeed (feedText : String) : List String :=
  let cs := feedText.toList
  let links :=
    ((rssScan cs.length cs).map jsTrim).filter isCapAlertLink ++
    ((atomScan cs.length cs).map jsTrim).filter isCapAlertLink
  dedupFirst links

/-! ### The per-alert feature pipeline (task.ts control, lines 542-817)

Features are modelled by the claim-relevant projection of the output
feature objects: the id, the optional icon property (polygon features
carry none, point features carry the selected icon) and the geometry. -/

/-- Output geometry. -/
inductive Geom where
  | point (c : Point)
  | polygon (rings : List (List Point))
deriving DecidableEq, Repr

/-- The claim-relevant projection of one output feature. -/
structure Feature where
  id : String
  icon : Option String
  geometry : Geom
deriving DecidableEq, Repr

/-- The icon set prefix (task.ts line 125). -/
def iconPrefixStr : String := "bb4df0a6-ca8d-4ba8-bb9e-3deb97ff015e:"

/-- The default icon file (task.ts line 126). -/
def defaultIconFile : String := "Incidents/INC.38.NaturalDisaster3.InformationOnly.png"

/-- The event-to-icon table ICON_MAP (task.ts lines 127-173). -/
def iconMapLookup : String → Option String
  | "snow" => some "NaturalHazards/NH.07.Snow.png"
  | "snowfall" => some "NaturalHazards/NH.07.Snow.png"
  | "rain" => some "NaturalHazards/NH.05.HeavyRain.png"
  | "rainfall" => some "NaturalHazards/NH.05.HeavyRain.png"
  | "wind" => some "NaturalHazards/NH.04.StrongWind.png"
  | "storm" => some "NaturalHazards/NH.06.ElectricalStorm.png"
  | "thunderstorm" => some "NaturalHazards/NH.06.ElectricalStorm.png"
  | "tornado" => some "NaturalHazards/NH.16.Tornado.png"
  | "tropCyclone" => some "NaturalHazards/NH.09.TropicalCyclone.png"
  | "tropStorm" => some "NaturalHazards/NH.09.TropicalCyclone.png"
  | "flood" => some "NaturalHazards/NH.01.Flood.png"
  | "flashFlood" => some "NaturalHazards/NH.01.Flood.png"
  | "earthquake" => some "NaturalHazards/NH.24.Earthquake.png"
  | "tsunami" => some "NaturalHazards/NH.03.Tsunami.png"
  | "marine" => some "Incidents/INC.24.Marine.png"
  | "fire" => some "Incidents/INC.35.Fire.png"
  | "fireWeather" => some "Incidents/INC.37.Fire.Vegetation.png"
  | "landslide" => some "NaturalHazards/NH.18.Landslide.png"
  | "stormSurge" => some "NaturalHazards/NH.02.StormSurge.png"
  | "ice" => some "NaturalHazards/NH.08.Ice.png"
  | "drought" => some "NaturalHazards/NH.22.Drought.png"
  | "biosecurity" => some "NaturalHazards/NH.23.Biosecurity.png"
  | "hail" => some "NaturalHazards/NH.06.ElectricalStorm.png"
  | "winterStorm" => some "NaturalHazards/NH.07.Snow.png"
  | "weather" => some "Incidents/INC.38.NaturalDisaster1.Urgent.png"
  | "temperature" => some "Incidents/INC.38.NaturalDisaster1.Urgent.png"
  | "coldOutbreak" => some "NaturalHazards/NH.08.Ice.png"
  | "heatWave" => some "Incidents/INC.38.NaturalDisaster1.Urgent.png"
  | "frost" => some "NaturalHazards/NH.08.Ice.png"
  | "windChill" => some "NaturalHazards/NH.08.Ice.png"
  | "avLightning" => some "NaturalHazards/NH.06.ElectricalStorm.png"
  | "avThunder" => some "NaturalHazards/NH.06.ElectricalStorm.png"
  | "highWater" => some "NaturalHazards/NH.01.Flood.png"
  | "riverFlood" => some "NaturalHazards/NH.01.Flood.png"
  | "landTsunami" => some "NaturalHazards/NH.03.Tsunami.png"
  | "beachTsunami" => some "NaturalHazards/NH.03.Tsunami.png"
  | "galeWind" => some "NaturalHazards/NH.04.StrongWind.png"
  | "hurricFrcWnd" => some "NaturalHazards/NH.04.StrongWind.png"
  | "iceberg" => some "Incidents/INC.24.Marine.png"
  | "largeSurf" => some "Incidents/INC.24.Marine.png"
  | "largeSwell" => some "Incidents/INC.24.Marine.png"
  | "squall" => some "NaturalHazards/NH.04.StrongWind.png"
  | "stormFrcWind" => some "NaturalHazards/NH.04.StrongWind.png"
  | "strongWind" => some "NaturalHazards/NH.04.StrongWind.png"
  | "waterspout" => some "NaturalHazards/NH.16.Tornado.png"
  | _ => none

/-- getEventIcon (task.ts lines 189-198): Health and Fire categories pick
fixed icons, otherwise the event code is looked up with a default. -/
def getEventIcon (eventType category : String) : String :=
  if category = "Health" then iconPrefixStr ++ "Incidents/INC.60.GHS08.HealthHazard.png"
  else if category = "Fire" then iconPrefixStr ++ "Incidents/INC.35.Fire.png"
  else iconPrefixStr ++ (iconMapLookup eventType).getD defaultIconFile

/-- The fixed fallback coordinate (approximate center of New Zealand,
task.ts line 728). -/
def fallbackNZPoint : Point := (174, -41)

/-- The feature built on the non-polygon tail of the control loop
(task.ts lines 742-806): id is the alert identifier and the icon property
is always attached there. -/
def mkTailFeature (alert : CAPAlert) (geom : Geom) : Feature :=
  { id := alert.identifier
    icon := some (getEventIcon alert.info.event alert.info.category)
    geometry := geom }

/-- The polygon loop of control (task.ts lines 586-709) from polygon index
i on: each string is parsed; a parse error escapes to the catch on line
711, after which geometry is still null and the fallback feature of lines
725-730 and 742-809 is pushed; a parsed ring of at least four points
yields a polygon feature (no icon) and a center feature (with icon); a
completed loop continues past the tail (line 710), emitting nothing
more. -/
def processPolygons (alert : CAPAlert) (multi : Bool) : Nat → List String → List Feature
  | _, [] => []
  | i, p :: rest =>
    match parsePolygonString p with
    | .error _ => [mkTailFeature alert (.point fallbackNZPoint)]
    | .ok coords =>
      if 4 ≤ (coords.headD []).length then
        let polygonId := if multi then alert.identifier ++ "-" ++ toString i else alert.identifier
        { id := polygonId, icon := none, geometry := .polygon coords } ::
        { id := polygonId ++ "-center"
          icon := some (getEventIcon alert.info.event alert.info.category)
          geometry := .point (calculatePolygonCentroid coords) } ::
        processPolygons alert multi (i + 1) rest
      else processPolygons alert multi (i + 1) rest

/-- The features contributed by one alert (task.ts lines 576-809): the
polygon branch when a truthy polygon is present, otherwise the circle
parse when a truthy circle is present, degrading to the fixed fallback
point, with the tail feature carrying the icon. -/
def processAlert (alert : CAPAlert) : List Feature :=
  match alert.info.area.polygon with
  | some ps => processPolygons alert (decide (1 < ps.length)) 0 ps
  | none =>
    let geom : Geom :=
      if alert.info.area.circle ≠ "" then
        match parseCircleString alert.info.area.circle with
        | some cd => .point cd.center
        | none => .point fallbackNZPoint
      else .point fallbackNZPoint
    [mkTailFeature alert geom]

/-- The whole per-alert loop: the feature collection accumulates each
alert's features in order (failures inside one iteration are confined to
it by the catch of task.ts line 810). -/
def processAlerts : List CAPAlert → List Feature
  | [] => []
  | a :: rest => processAlert a ++ processAlerts rest

/-! ### Specification-side characterizations and concrete fixtures -/

/-- The nonempty whitespace-delimited tokens of a polygon string (what the
specification calls the coordinate pairs of the input). -/
def wsTokens (s : String) : List String :=
  (splitChars isJsWs (jsTrim s).toList).filter (fun t => t ≠ "")

/-- The points parsed from the valid tokens of a polygon string. -/
def polyPoints (s : String) : List Point :=
  (wsTokens s).filterMap (fun t => (tokRes t).point)

/-- The invalid tokens of a polygon string. -/
def invalidTokens (s : String) : List String :=
  (wsTokens s).filter (fun t => (tokRes t).isInvalid)

/-- The cross terms of the shoelace formula over consecutive vertex
pairs. -/
def crossTerms (pts : List Point) : List ℚ :=
  (pts.zip pts.tail).map (fun q => q.1.1 * q.2.2 - q.2.1 * q.1.2)

/-- The x-moment terms of the shoelace formula. -/
def cxTerms (pts : List Point) : List ℚ :=
  (pts.zip pts.tail).map (fun q => (q.1.1 + q.2.1) * (q.1.1 * q.2.2 - q.2.1 * q.1.2))

/-- The y-moment terms of the shoelace formula. -/
def cyTerms (pts : List Point) : List ℚ :=
  (pts.zip pts.tail).map (fun q => (q.1.2 + q.2.2) * (q.1.1 * q.2.2 - q.2.1 * q.1.2))

/-- The signed area of a ring (half the summed cross terms). -/
def signedAreaSpec (pts : List Point) : ℚ :=
  (crossTerms pts).sum / 2

/-- The arithmetic mean of the ring points. -/
def meanPointSpec (pts : List Point) : Point :=
  ((pts.map Prod.fst).sum / pts.length, (pts.map Prod.snd).sum / pts.length)

/-- The sixteen uppercase hexadecimal digits. -/
def hexUpperChars : List Char :=
  ['0', '1', '2', '3', '4', '5', '6', '7', '8', '9', 'A', 'B', 'C', 'D', 'E', 'F']

/-- An alert fixture whose only scalar content is the identifier, with the
given area. -/
def mkFixtureAlert (ident : String) (area : CAPAlertArea) : CAPAlert :=
  { identifier := ident, sender := "sender", sent := "2024-01-01T00:00:00+13:00"
    status := "Actual", msgType := "Alert", scope := "Public"
    info :=
      { category := "", event := "", urgency := "", severity := "", certainty := ""
        senderName := "", headline := "", description := "", instruction := ""
        responseType := "", onset := "", expires := "", web := ""
        area := area
        colorCode := none }
    signature := none }

/-- An alert whose single polygon string is unparsable. -/
def c1CexAlert : CAPAlert :=
  mkFixtureAlert "CAP-1" { areaDesc := "", polygon := some ["bad"], circle := "" }

/-- An alert with two valid polygon strings. -/
def c3WitAlert : CAPAlert :=
  mkFixtureAlert "CAP-3" { areaDesc := "", polygon := some ["0,0 0,1 1,1", "2,2 2,3 3,3 2.5,2.5"], circle := "" }

/-- A parsed document whose alert lacks the sender element. -/
def c8NoSenderRaw : RawAlert :=
  { identifier := some "id-1", sender := none, sent := some "2024-01-01T00:00:00+13:00"
    status := some "Actual", msgType := some "Alert", scope := some "Public"
    info := some
      { category := some "Met", event := some "storm", urgency := none, severity := none
        certainty := none, senderName := none, headline := none, description := none
        instruction := none, responseType := none, onset := none, expires := none
        web := none, parameter := none, area := none }
    certSection := none }

/-! ### Helper lemmas -/

/-- The modelled Math.abs agrees with the absolute value. -/
theorem mathAbs_eq_abs (q : ℚ) : mathAbs q = |q| := by
  by_cases h : q < 0
  · simp [mathAbs, h, abs_of_neg h]
  · simp [mathAbs, h, abs_of_nonneg (not_lt.mp h)]

/-- A SHA-256 digest has 32 bytes. -/
theorem sha256_length (msg : List Nat) : (sha256 msg).length = 32 := by
  simp [sha256, digestOf, word4]

/-- Hexadecimal digits of values below sixteen are uppercase hexadecimal
characters. -/
theorem hexDigitChar_mem (n : Nat) (h : n < 16) : hexDigitChar n ∈ hexUpperChars := by
  interval_cases n <;> decide

/-- A rendered byte is two uppercase hexadecimal characters. -/
theorem byteHex_spec (b : Nat) :
    (byteHex b).length = 2 ∧ ∀ ch ∈ (byteHex b).toList, ch ∈ hexUpperChars := by
  constructor
  · rfl
  · intro ch hch
    have hch2 : ch = hexDigitChar (b / 16 % 16) ∨ ch = hexDigitChar (b % 16) := by
      simpa [byteHex] using hch
    rcases hch2 with h | h <;> subst h <;>
      exact hexDigitChar_mem _ (Nat.mod_lt _ (by norm_num))

/-! ### C1 -/

/-- C1 counterexample: an alert whose single polygon string is invalid
still contributes one output feature, the fallback point at the New
Zealand center, so the pipeline does not emit zero features for it. -/
theorem claim_C1_counterexample :
    parsePolygonString "bad" = .error "Invalid coordinate pairs: bad" ∧
    processAlert c1CexAlert =
      [{ id := "CAP-1", icon := some (getEventIcon "" ""), geometry := .point (174, -41) }] ∧
    processAlert c1CexAlert ≠ [] :=
  ⟨by decide, by decide, by decide⟩

/-- C1 (amended): when the first polygon string of an alert fails to
parse, the alert contributes exactly one fallback point feature (no
polygon or center features), and processing of subsequent alerts
continues unchanged. -/
theorem claim_C1_amended :
    (∀ (alert : CAPAlert) (p : String) (rest : List String) (e : String),
      alert.info.area.polygon = some (p :: rest) →
      parsePolygonString p = .error e →
      processAlert alert = [mkTailFeature alert (.point fallbackNZPoint)]) ∧
    (∀ (a : CAPAlert) (others : List CAPAlert),
      processAlerts (a :: others) = processAlert a ++ processAlerts others) := by
  constructor
  · intro alert p rest e hpoly herr
    simp [processAlert, hpoly, processPolygons, herr]
  · intro a others
    rfl

/-- C1 witness: the amended statement applied to the concrete bad-polygon
alert. -/
theorem claim_C1_witness :
    c1CexAlert.info.area.polygon = some ["bad"] ∧
    processAlert c1CexAlert = [mkTailFeature c1CexAlert (.point fallbackNZPoint)] :=
  ⟨rfl, claim_C1_amended.1 c1CexAlert "bad" [] "Invalid coordinate pairs: bad" rfl (by decide)⟩

/-! ### C2 -/

/-- C2 counterexample: for the certificate text AAAA the computed
fingerprint is the SHA-256 of the decoded bytes [0, 0, 0], not the
SHA-256 of the bytes of the cleaned base64 string itself. -/
theorem claim_C2_counterexample :
    b64Decode (cleanCert "AAAA") = some [0, 0, 0] ∧
    (signatureOfCert "AAAA").fingerprint ≠
      renderFingerprint (sha256 (strBytes (cleanCert "AAAA"))) :=
  ⟨by decide, by decide⟩

/-- C2 (amended): for every certificate section whose cleaned text decodes
as base64, the fingerprint is the SHA-256 hash of the decoded certificate
bytes, rendered as 32 colon-separated groups of two uppercase hexadecimal
characters. -/
theorem claim_C2_amended :
    ∀ (cert : String) (bytes : List Nat),
      b64Decode (cleanCert cert) = some bytes →
      (signatureOfCert cert).fingerprint = renderFingerprint (sha256 bytes) ∧
      ∃ groups : List String,
        renderFingerprint (sha256 bytes) = String.intercalate ":" groups ∧
        groups.length = 32 ∧
        ∀ g ∈ groups, g.length = 2 ∧ ∀ ch ∈ g.toList, ch ∈ hexUpperChars := by
  intro cert bytes h
  constructor
  · simp [signatureOfCert, h]
  · refine ⟨(sha256 bytes).map byteHex, rfl, ?_, ?_⟩
    · simp [sha256_length]
    · intro g hg
      obtain ⟨b, _, rfl⟩ := List.mem_map.mp hg
      exact byteHex_spec b

/-- C2 witness: the amended statement applied to the AAAA fixture. -/
theorem claim_C2_witness :
    b64Decode (cleanCert "AAAA") = some [0, 0, 0] ∧
    ((signatureOfCert "AAAA").fingerprint = renderFingerprint (sha256 [0, 0, 0]) ∧
      ∃ groups : List String,
        renderFingerprint (sha256 [0, 0, 0]) = String.intercalate ":" groups ∧
        groups.length = 32 ∧
        ∀ g ∈ groups, g.length = 2 ∧ ∀ ch ∈ g.toList, ch ∈ hexUpperChars) :=
  ⟨by decide, claim_C2_amended "AAAA" [0, 0, 0] (by decide)⟩

/-! ### C3 -/

/-- C3: an alert with exactly two polygon strings, each parsing to a ring
of at least four points, contributes exactly four features: the two
polygon features (ids suffixed -0 and -1, no icon) each followed by its
center point feature (id suffixed -center, carrying the icon). -/
theorem claim_C3 :
    ∀ (alert : CAPAlert) (p0 p1 : String) (r0 r1 : List (List Point)),
      alert.info.area.polygon = some [p0, p1] →
      parsePolygonString p0 = .ok r0 →
      parsePolygonString p1 = .ok r1 →
      4 ≤ (r0.headD []).length →
      4 ≤ (r1.headD []).length →
      processAlert alert =
        [⟨alert.identifier ++ "-0", none, .polygon r0⟩,
         ⟨alert.identifier ++ "-0" ++ "-center",
           some (getEventIcon alert.info.event alert.info.category),
           .point (calculatePolygonCentroid r0)⟩,
         ⟨alert.identifier ++ "-1", none, .polygon r1⟩,
         ⟨alert.identifier ++ "-1" ++ "-center",
           some (getEventIcon alert.info.event alert.info.category),
           .point (calculatePolygonCentroid r1)⟩] := by
  intro alert p0 p1 r0 r1 hpoly h0 h1 hl0 hl1
  have hl0a : 4 ≤ (r0.head?.getD []).length := by simpa using hl0
  have hl1a : 4 ≤ (r1.head?.getD []).length := by simpa using hl1
  have e0 : alert.identifier ++ "-" ++ toString (0 : Nat) = alert.identifier ++ "-0" := by
    rw [String.append_assoc]; rfl
  have e1 : alert.identifier ++ "-" ++ toString (1 : Nat) = alert.identifier ++ "-1" := by
    rw [String.append_assoc]; rfl
  simp [processAlert, hpoly, processPolygons, h0, h1, hl0a, hl1a, e0, e1]

/-- C3 witness: the statement applied to a concrete two-polygon alert. -/
theorem claim_C3_witness :
    c3WitAlert.info.area.polygon = some ["0,0 0,1 1,1", "2,2 2,3 3,3 2.5,2.5"] ∧
    processAlert c3WitAlert =
      [⟨c3WitAlert.identifier ++ "-0", none, .polygon [[(0, 0), (1, 0), (1, 1), (0, 0)]]⟩,
       ⟨c3WitAlert.identifier ++ "-0" ++ "-center",
         some (getEventIcon c3WitAlert.info.event c3WitAlert.info.category),
         .point (calculatePolygonCentroid [[(0, 0), (1, 0), (1, 1), (0, 0)]])⟩,
       ⟨c3WitAlert.identifier ++ "-1", none,
         .polygon [[(2, 2), (3, 2), (3, 3), (mkRat 5 2, mkRat 5 2), (2, 2)]]⟩,
       ⟨c3WitAlert.identifier ++ "-1" ++ "-center",
         some (getEventIcon c3WitAlert.info.event c3WitAlert.info.category),
         .point (calculatePolygonCentroid [[(2, 2), (3, 2), (3, 3), (mkRat 5 2, mkRat 5 2), (2, 2)]])⟩] :=
  ⟨rfl,
    claim_C3 c3WitAlert "0,0 0,1 1,1" "2,2 2,3 3,3 2.5,2.5"
      [[(0, 0), (1, 0), (1, 1), (0, 0)]]
      [[(2, 2), (3, 2), (3, 3), (mkRat 5 2, mkRat 5 2), (2, 2)]]
      rfl (by decide) (by decide) (by decide) (by decide)⟩

/-! ### C10 -/

/-- C10: a coordinate pair is accepted whenever both components parse to
in-range finite floats, regardless of trailing junk after the number, as
with the pair 10.5abc,20 which yields the point [20, 10.5]. -/
theorem claim_C10 :
    (∀ (pair latPart lonPart : String) (la lo : ℚ),
      pair.toList.contains ',' = true →
      splitChars (fun c => c = ',') pair.toList = [latPart, lonPart] →
      jsTrim latPart ≠ "" → jsTrim lonPart ≠ "" →
      jsParseFloat (jsTrim latPart) = .num la →
      jsParseFloat (jsTrim lonPart) = .num lo →
      -90 ≤ la → la ≤ 90 → -180 ≤ lo → lo ≤ 180 →
      tokRes pair = .pt (lo, la)) ∧
    jsParseFloat "10.5abc" = .num (mkRat 21 2) ∧
    tokRes "10.5abc,20" = .pt (20, mkRat 21 2) ∧
    parsePolygonString "10.5abc,20 0,0 1,1" =
      .ok [[(20, mkRat 21 2), (0, 0), (1, 1), (20, mkRat 21 2)]] := by
  refine ⟨?_, by decide, by decide, by decide⟩
  intro pair latPart lonPart la lo hcomma hsplit hlat hlon hpla hplo h1 h2 h3 h4
  have hpne : pair ≠ "" := by
    intro h
    rw [h] at hcomma
    simp at hcomma
  have hmem : ',' ∈ pair.data := by
    simpa using hcomma
  have hsplit2 : splitChars (fun c => c = ',') pair.data = [latPart, lonPart] := hsplit
  have n1 : ¬ (la < -90) := not_lt.mpr h1
  have n2 : ¬ ((90 : ℚ) < la) := not_lt.mpr h2
  have n3 : ¬ (lo < -180) := not_lt.mpr h3
  have n4 : ¬ ((180 : ℚ) < lo) := not_lt.mpr h4
  simp [tokRes, hpne, hmem, hsplit2, hlat, hlon, hpla, hplo,
    JsFloat.ltb, JsFloat.toQ, n1, n2, n3, n4]

/-- C10 witness: the general acceptance statement applied to the concrete
pair with trailing junk. -/
theorem claim_C10_witness :
    tokRes "10.5abc,20" = .pt (20, mkRat 21 2) :=
  claim_C10.1 "10.5abc,20" "10.5abc" "20" (mkRat 21 2) 20
    (by decide) (by decide) (by decide) (by decide) (by decide) (by decide)
    (by decide) (by decide) (by decide) (by decide)

/-! ### C4 -/

/-- The shoelace accumulator computes the sums of the cross, x-moment and
y-moment term lists. -/
theorem shoelace_eq (pts : List Point) :
    shoelace pts = ((crossTerms pts).sum, (cxTerms pts).sum, (cyTerms pts).sum) := by
  induction pts with
  | nil => simp [shoelace, crossTerms, cxTerms, cyTerms]
  | cons p tl ih =>
    cases tl with
    | nil => simp [shoelace, crossTerms, cxTerms, cyTerms]
    | cons q tl2 =>
      simp only [shoelace, ih]
      simp [crossTerms, cxTerms, cyTerms]
      refine ⟨by ring, by ring, by ring⟩

/-- Folding addition of the first components equals the summed map. -/
theorem foldl_add_fst (l : List Point) (a : ℚ) :
    l.foldl (fun acc p => acc + p.1) a = a + (l.map Prod.fst).sum := by
  induction l generalizing a with
  | nil => simp
  | cons p tl ih => simp [ih, add_assoc]

/-- Folding addition of the second components equals the summed map. -/
theorem foldl_add_snd (l : List Point) (a : ℚ) :
    l.foldl (fun acc p => acc + p.2) a = a + (l.map Prod.snd).sum := by
  induction l generalizing a with
  | nil => simp
  | cons p tl ih => simp [ih, add_assoc]

/-- C4: calculatePolygonCentroid implements the signed-area centroid with
the arithmetic-mean fallback below the degeneracy threshold, and the
closed square ring with corners (0,0) and (2,2) has centroid exactly
(1,1). -/
theorem claim_C4 :
    (∀ pts : List Point, 3 ≤ pts.length →
      calculatePolygonCentroid [pts] =
        if |signedAreaSpec pts| < 1 / 10000000000 then meanPointSpec pts
        else ((cxTerms pts).sum / (6 * signedAreaSpec pts),
              (cyTerms pts).sum / (6 * signedAreaSpec pts))) ∧
    calculatePolygonCentroid [[(0, 0), (2, 0), (2, 2), (0, 2), (0, 0)]] = (1, 1) := by
  constructor
  · intro pts h3
    have hlen : ¬ pts.length < 3 := not_lt.mpr h3
    have hhalf : (crossTerms pts).sum * (1 / 2) = signedAreaSpec pts := by
      rw [signedAreaSpec]; ring
    simp only [calculatePolygonCentroid, List.headD, hlen, if_false, shoelace_eq, hhalf,
      mathAbs_eq_abs, foldl_add_fst, foldl_add_snd, zero_add]
    split
    · simp [meanPointSpec]
    · rfl
  · norm_num [calculatePolygonCentroid, shoelace, mathAbs]

/-- C4 witness: the characterization applied to a concrete triangle
ring. -/
theorem claim_C4_witness :
    3 ≤ ([((0 : ℚ), (0 : ℚ)), ((4 : ℚ), (0 : ℚ)), ((4 : ℚ), (4 : ℚ))] : List Point).length ∧
    calculatePolygonCentroid [[((0 : ℚ), (0 : ℚ)), ((4 : ℚ), (0 : ℚ)), ((4 : ℚ), (4 : ℚ))]] =
      if |signedAreaSpec [((0 : ℚ), (0 : ℚ)), ((4 : ℚ), (0 : ℚ)), ((4 : ℚ), (4 : ℚ))]| < 1 / 10000000000 then
        meanPointSpec [((0 : ℚ), (0 : ℚ)), ((4 : ℚ), (0 : ℚ)), ((4 : ℚ), (4 : ℚ))]
      else
        ((cxTerms [((0 : ℚ), (0 : ℚ)), ((4 : ℚ), (0 : ℚ)), ((4 : ℚ), (4 : ℚ))]).sum /
           (6 * signedAreaSpec [((0 : ℚ), (0 : ℚ)), ((4 : ℚ), (0 : ℚ)), ((4 : ℚ), (4 : ℚ))]),
         (cyTerms [((0 : ℚ), (0 : ℚ)), ((4 : ℚ), (0 : ℚ)), ((4 : ℚ), (4 : ℚ))]).sum /
           (6 * signedAreaSpec [((0 : ℚ), (0 : ℚ)), ((4 : ℚ), (0 : ℚ)), ((4 : ℚ), (4 : ℚ))])) :=
  ⟨by decide, claim_C4.1 _ (by decide)⟩

/-! ### C7 -/

/-- A parseFloat result squeezed between two finite bounds by the leb
comparisons is a finite value within those bounds. -/
theorem leb_num_between {x : JsFloat} {lo hi : ℚ}
    (h1 : (JsFloat.num lo).leb x = true) (h2 : x.leb (JsFloat.num hi) = true) :
    ∃ q, x = JsFloat.num q ∧ lo ≤ q ∧ q ≤ hi := by
  cases x with
  | nan => simp [JsFloat.leb] at h1
  | inf => simp [JsFloat.leb] at h2
  | negInf => simp [JsFloat.leb] at h1
  | num q =>
    simp only [JsFloat.leb, decide_eq_true_eq] at h1 h2
    exact ⟨q, rfl, h1, h2⟩

/-- C7: parseCircleString is total (returns an optional value, never an
error); every successful parse has a positive radius and an in-range
center; the concrete valid string parses to center [174, -41] with radius
50; and empty, comma-free, zero-radius and negative-radius strings all
return none. -/
theorem claim_C7 :
    (∀ (s : String) (c : CircleData),
      parseCircleString s = some c →
      (JsFloat.num 0).ltb c.radius = true ∧
      -90 ≤ c.center.2 ∧ c.center.2 ≤ 90 ∧ -180 ≤ c.center.1 ∧ c.center.1 ≤ 180) ∧
    parseCircleString "-41.0,174.0 50" = some ⟨(174, -41), .num 50⟩ ∧
    parseCircleString "" = none ∧
    parseCircleString "-41.0 174.0" = none ∧
    parseCircleString "-41.0,174.0 0" = none ∧
    parseCircleString "-41.0,174.0 -5" = none := by
  refine ⟨?_, by decide, by decide, by decide, by decide, by decide⟩
  intro s c h
  by_cases hs : s = ""
  · rw [hs] at h
    simp [parseCircleString] at h
  · simp only [parseCircleString, hs, if_false] at h
    split at h
    · split at h
      · split at h
        · split at h
          · rename_i hcond
            obtain ⟨hn1, hn2, hn3, hle1, hle2, hle3, hle4, hrad⟩ := hcond
            obtain ⟨la, hla, hla1, hla2⟩ := leb_num_between hle1 hle2
            obtain ⟨lo, hlo, hlo1, hlo2⟩ := leb_num_between hle3 hle4
            obtain rfl := Option.some.inj h
            exact ⟨by simpa using hrad,
              by simpa [hla, JsFloat.toQ] using hla1,
              by simpa [hla, JsFloat.toQ] using hla2,
              by simpa [hlo, JsFloat.toQ] using hlo1,
              by simpa [hlo, JsFloat.toQ] using hlo2⟩
          · exact absurd h (by simp)
        · exact absurd h (by simp)
      · exact absurd h (by simp)
    · exact absurd h (by simp)

/-- C7 witness: the success characterization applied to the concrete
valid circle string. -/
theorem claim_C7_witness :
    (JsFloat.num 0).ltb (JsFloat.num 50) = true ∧
    -90 ≤ ((174 : ℚ), (-41 : ℚ)).2 ∧ ((174 : ℚ), (-41 : ℚ)).2 ≤ 90 ∧
    -180 ≤ ((174 : ℚ), (-41 : ℚ)).1 ∧ ((174 : ℚ), (-41 : ℚ)).1 ≤ 180 :=
  claim_C7.1 "-41.0,174.0 50" ⟨(174, -41), .num 50⟩ (by decide)

/-! ### C8 -/

/-- C8: the XML parse model returns none exactly when the alert element is
absent, the info element is absent, or any of identifier, sender, sent
defaults to the empty string; being a total function into an option type,
it never throws for missing optional scalar fields. -/
theorem claim_C8 :
    (∀ a : RawAlert,
      parseXMLModel (some a) = none ↔
        (a.info = none ∨ a.identifier.getD "" = "" ∨ a.sender.getD "" = "" ∨
          a.sent.getD "" = "")) ∧
    parseXMLModel none = none := by
  refine ⟨?_, rfl⟩
  intro a
  cases hinfo : a.info with
  | none => simp [parseXMLModel, hinfo]
  | some i =>
    by_cases hc : a.identifier.getD "" = "" ∨ a.sender.getD "" = "" ∨ a.sent.getD "" = ""
    · simp [parseXMLModel, hinfo, hc]
    · simp [parseXMLModel, hinfo, hc]

/-- C8 witness: a document with every required field except sender parses
to none. -/
theorem claim_C8_witness :
    parseXMLModel (some c8NoSenderRaw) = none :=
  (claim_C8.1 c8NoSenderRaw).mpr (by decide)

/-! ### C5 and C6 helper lemmas -/

/-- The polygon loop accumulates exactly the parsed points and the invalid
tokens. -/
theorem polyLoop_eq (l : List String) :
    polyLoop l = (l.filterMap (fun t => (tokRes t).point),
                  l.filter (fun t => (tokRes t).isInvalid)) := by
  induction l with
  | nil => simp [polyLoop]
  | cons t rest ih =>
    simp only [polyLoop, ih]
    cases htr : tokRes t with
    | skip => simp [List.filterMap_cons, List.filter_cons, htr, TokRes.point, TokRes.isInvalid]
    | invalid => simp [List.filterMap_cons, List.filter_cons, htr, TokRes.point, TokRes.isInvalid]
    | pt p => simp [List.filterMap_cons, List.filter_cons, htr, TokRes.point, TokRes.isInvalid]

/-- Dropping empty strings first does not change a filterMap that sends
the empty string to none. -/
theorem filterMap_filter_ne {β : Type} (f : String → Option β) (hf : f "" = none)
    (l : List String) :
    (l.filter (fun t => t ≠ "")).filterMap f = l.filterMap f := by
  induction l with
  | nil => rfl
  | cons t rest ih =>
    rw [List.filter_cons]
    by_cases ht : t = ""
    · subst ht
      rw [if_neg (by decide), List.filterMap_cons, hf, ih]
    · rw [if_pos (by simp [ht]), List.filterMap_cons, List.filterMap_cons, ih]

/-- Dropping empty strings first does not change a filter that rejects the
empty string. -/
theorem filter_filter_ne (q : String → Bool) (hq : q "" = false) (l : List String) :
    (l.filter (fun t => t ≠ "")).filter q = l.filter q := by
  induction l with
  | nil => rfl
  | cons t rest ih =>
    rw [List.filter_cons]
    by_cases ht : t = ""
    · subst ht
      rw [if_neg (by decide), ih, List.filter_cons, hq, if_neg (by simp)]
    · rw [if_pos (by simp [ht]), List.filter_cons, List.filter_cons, ih]

/-- Empty tokens contribute no points, so filtering them away first does
not change the parsed points. -/
theorem filterMap_point_filter_ne (l : List String) :
    (l.filter (fun t => t ≠ "")).filterMap (fun t => (tokRes t).point) =
      l.filterMap (fun t => (tokRes t).point) :=
  filterMap_filter_ne _ rfl l

/-- Empty tokens are not invalid, so filtering them away first does not
change the invalid tokens. -/
theorem filter_invalid_filter_ne (l : List String) :
    (l.filter (fun t => t ≠ "")).filter (fun t => (tokRes t).isInvalid) =
      l.filter (fun t => (tokRes t).isInvalid) :=
  filter_filter_ne _ rfl l

/-- When every token is a point, the parsed points are in bijection with
the tokens. -/
theorem filterMap_point_length (l : List String) (h : ∀ t ∈ l, (tokRes t).isPt = true) :
    (l.filterMap (fun t => (tokRes t).point)).length = l.length := by
  induction l with
  | nil => rfl
  | cons t rest ih =>
    have hpt := h t (by simp)
    cases htr : tokRes t with
    | skip => rw [htr] at hpt; simp [TokRes.isPt] at hpt
    | invalid => rw [htr] at hpt; simp [TokRes.isPt] at hpt
    | pt p =>
      rw [List.filterMap_cons, htr]
      show (p :: rest.filterMap (fun t => (tokRes t).point)).length = rest.length + 1
      rw [List.length_cons, ih (fun x hx => h x (List.mem_cons_of_mem _ hx))]

/-- A string whose trim is empty has no tokens. -/
theorem wsTokens_of_trim_empty (s : String) (h : jsTrim s = "") : wsTokens s = [] := by
  simp [wsTokens, h, splitChars]

/-- Successful polygon parses only happen with no invalid tokens and at
least three valid points. -/
theorem parsePolygon_ok_inv (s : String) (r : List (List Point))
    (h : parsePolygonString s = .ok r) :
    invalidTokens s = [] ∧ 3 ≤ (polyPoints s).length := by
  by_cases hse : s = ""
  · rw [hse] at h
    simp [parsePolygonString] at h
  · by_cases htr : jsTrim s = ""
    · simp [parsePolygonString, hse, htr] at h
    · simp only [parsePolygonString, hse, htr, if_false, polyLoop_eq] at h
      split at h
      · exact absurd h (by simp)
      · next hinv =>
          split at h
          · exact absurd h (by simp)
          · next hlen =>
              have hi : invalidTokens s = [] := by
                rw [invalidTokens, wsTokens, filter_invalid_filter_ne]
                simpa using hinv
              have hp : 3 ≤ (polyPoints s).length := by
                rw [polyPoints, wsTokens, filterMap_point_filter_ne]
                omega
              exact ⟨hi, hp⟩

/-! ### C5 -/

/-- C5: a polygon string all of whose tokens are valid pairs, with at
least three of them, parses to a single ring of [lon, lat] points that is
closed and has length one more than the token count, or equal to it when
the parsed points were already closed. -/
theorem claim_C5 :
    ∀ s : String,
      (∀ t ∈ wsTokens s, (tokRes t).isPt = true) →
      3 ≤ (wsTokens s).length →
      ∃ ring : List Point,
        parsePolygonString s = .ok [ring] ∧
        ring.headD (0, 0) = ring.getLastD (0, 0) ∧
        (polyPoints s).length = (wsTokens s).length ∧
        (ring = polyPoints s ∨ ring = polyPoints s ++ [(polyPoints s).headD (0, 0)]) ∧
        ((polyPoints s).headD (0, 0) = (polyPoints s).getLastD (0, 0) →
          ring.length = (wsTokens s).length) ∧
        ((polyPoints s).headD (0, 0) ≠ (polyPoints s).getLastD (0, 0) →
          ring.length = (wsTokens s).length + 1) := by
  intro s hall hlen
  have htne : wsTokens s ≠ [] := by
    intro h
    rw [h] at hlen
    simp at hlen
  have htrim : jsTrim s ≠ "" := fun h => htne (wsTokens_of_trim_empty s h)
  have hse : s ≠ "" := by
    intro h
    subst h
    exact htrim rfl
  have hplen : (polyPoints s).length = (wsTokens s).length :=
    filterMap_point_length (wsTokens s) hall
  have hinv : (splitChars isJsWs (jsTrim s).toList).filter
      (fun t => (tokRes t).isInvalid) = [] := by
    rw [← filter_invalid_filter_ne]
    refine List.filter_eq_nil.mpr ?_
    intro t ht
    have hpt := hall t ht
    cases h2 : tokRes t <;> rw [h2] at hpt <;> simp [TokRes.isPt] at hpt <;>
      simp [TokRes.isInvalid, h2]
  have hpts : (splitChars isJsWs (jsTrim s).toList).filterMap
      (fun t => (tokRes t).point) = polyPoints s := by
    rw [polyPoints, wsTokens, filterMap_point_filter_ne]
  have h3p : 3 ≤ (polyPoints s).length := by omega
  have hnl : ¬ ((polyPoints s).length < 3) := not_lt.mpr h3p
  obtain ⟨p0, tl, hp⟩ : ∃ p0 tl, polyPoints s = p0 :: tl := by
    cases hq : polyPoints s with
    | nil => rw [hq] at h3p; simp at h3p
    | cons a b => exact ⟨a, b, rfl⟩
  have hnl2 : ¬ (tl.length + 1 < 3) := by
    have h2 := hnl
    rw [hp] at h2
    simpa using h2
  have hkey : (p0 :: tl).getLast?.getD p0 = tl.getLastD p0 := by
    rw [← List.getLastD_eq_getLast?, List.getLastD_cons]
  by_cases hcl : p0 = tl.getLastD p0
  · have hcl3 : p0 = (p0 :: tl).getLast?.getD p0 := by
      rw [hkey]
      exact hcl
    have hmain : parsePolygonString s = .ok [polyPoints s] := by
      rw [hp]
      simp only [parsePolygonString, hse, htrim, polyLoop_eq, hinv, hpts, hp]
      simp [hnl2]
      exact hcl3
    refine ⟨polyPoints s, hmain, ?_, hplen, Or.inl rfl, fun _ => hplen, fun hne => absurd ?_ hne⟩
    · rw [hp, List.headD_cons, List.getLastD_cons]
      exact hcl
    · rw [hp, List.headD_cons, List.getLastD_cons]
      exact hcl
  · have hcl3 : ¬ p0 = (p0 :: tl).getLast?.getD p0 := by
      rw [hkey]
      exact hcl
    have hmain : parsePolygonString s =
        .ok [polyPoints s ++ [(polyPoints s).headD (0, 0)]] := by
      rw [hp]
      simp only [List.headD_cons]
      simp only [parsePolygonString, hse, htrim, polyLoop_eq, hinv, hpts, hp]
      simp [hnl2]
      exact hcl3
    refine ⟨polyPoints s ++ [(polyPoints s).headD (0, 0)], hmain, ?_, hplen, Or.inr rfl,
      ?_, ?_⟩
    · rw [hp]
      simp only [List.headD_cons]
      show p0 = ((p0 :: tl) ++ [p0]).getLastD (0, 0)
      exact (List.getLastD_concat _ _ _).symm
    · intro heq
      rw [hp, List.headD_cons, List.getLastD_cons] at heq
      exact absurd heq hcl
    · intro _
      have h2 := hplen
      rw [hp] at h2
      rw [hp]
      simp only [List.headD_cons, List.length_append, List.length_cons, List.length_nil] at h2 ⊢
      omega

/-- C5 witness: the statement applied to a concrete three-pair string. -/
theorem claim_C5_witness :
    (∀ t ∈ wsTokens "0,0 2,0 2,2", (tokRes t).isPt = true) ∧
    3 ≤ (wsTokens "0,0 2,0 2,2").length ∧
    ∃ ring : List Point,
      parsePolygonString "0,0 2,0 2,2" = .ok [ring] ∧
      ring.headD (0, 0) = ring.getLastD (0, 0) ∧
      (polyPoints "0,0 2,0 2,2").length = (wsTokens "0,0 2,0 2,2").length ∧
      (ring = polyPoints "0,0 2,0 2,2" ∨
        ring = polyPoints "0,0 2,0 2,2" ++ [(polyPoints "0,0 2,0 2,2").headD (0, 0)]) ∧
      ((polyPoints "0,0 2,0 2,2").headD (0, 0) = (polyPoints "0,0 2,0 2,2").getLastD (0, 0) →
        ring.length = (wsTokens "0,0 2,0 2,2").length) ∧
      ((polyPoints "0,0 2,0 2,2").headD (0, 0) ≠ (polyPoints "0,0 2,0 2,2").getLastD (0, 0) →
        ring.length = (wsTokens "0,0 2,0 2,2").length + 1) :=
  ⟨by decide, by decide, claim_C5 "0,0 2,0 2,2" (by decide) (by decide)⟩

/-! ### C6 -/

/-- C6: when any token of a polygon string is invalid, parsing fails with
the invalid-pairs error listing the first three offenders and an ellipsis
exactly when more than three exist; when no token is invalid but fewer
than three valid points remain, parsing fails with the insufficient-points
error; and in every such situation no ring is ever returned. -/
theorem claim_C6 :
    ∀ s : String,
      (invalidTokens s ≠ [] →
        parsePolygonString s = .error ("Invalid coordinate pairs: " ++
          String.intercalate ", " ((invalidTokens s).take 3) ++
          (if 3 < (invalidTokens s).length then "..." else ""))) ∧
      (invalidTokens s = [] → wsTokens s ≠ [] → (polyPoints s).length < 3 →
        parsePolygonString s = .error ("Insufficient valid points: " ++
          toString (polyPoints s).length ++ " (minimum 3 required)")) ∧
      ((invalidTokens s ≠ [] ∨ (polyPoints s).length < 3) →
        ∀ r, parsePolygonString s ≠ .ok r) := by
  intro s
  refine ⟨?_, ?_, ?_⟩
  · intro hinv
    have htne : wsTokens s ≠ [] := by
      intro h
      rw [invalidTokens, h] at hinv
      simp at hinv
    have htrim : jsTrim s ≠ "" := fun h => htne (wsTokens_of_trim_empty s h)
    have hse : s ≠ "" := by
      intro h
      subst h
      exact htrim rfl
    have hfil : (splitChars isJsWs (jsTrim s).toList).filter
        (fun t => (tokRes t).isInvalid) = invalidTokens s := by
      rw [invalidTokens, wsTokens, filter_invalid_filter_ne]
    simp only [parsePolygonString, hse, htrim, polyLoop_eq, hfil]
    simp [hinv]
  · intro hinv htne hlt
    have htrim : jsTrim s ≠ "" := fun h => htne (wsTokens_of_trim_empty s h)
    have hse : s ≠ "" := by
      intro h
      subst h
      exact htrim rfl
    have hfil : (splitChars isJsWs (jsTrim s).toList).filter
        (fun t => (tokRes t).isInvalid) = invalidTokens s := by
      rw [invalidTokens, wsTokens, filter_invalid_filter_ne]
    have hpts : (splitChars isJsWs (jsTrim s).toList).filterMap
        (fun t => (tokRes t).point) = polyPoints s := by
      rw [polyPoints, wsTokens, filterMap_point_filter_ne]
    simp only [parsePolygonString, hse, htrim, polyLoop_eq, hfil, hpts]
    simp [hinv, hlt]
  · rintro hbad r hok
    obtain ⟨hi, hl⟩ := parsePolygon_ok_inv s r hok
    rcases hbad with hbad | hbad
    · exact hbad hi
    · omega

/-- C6 witness: the invalid-pairs branch applied to a string with four
bad tokens, exercising the three-offender cap and ellipsis. -/
theorem claim_C6_witness :
    invalidTokens "a b c d 0,0" ≠ [] ∧
    parsePolygonString "a b c d 0,0" = .error ("Invalid coordinate pairs: " ++
      String.intercalate ", " ((invalidTokens "a b c d 0,0").take 3) ++
      (if 3 < (invalidTokens "a b c d 0,0").length then "..." else "")) :=
  ⟨by decide, (claim_C6 "a b c d 0,0").1 (by decide)⟩

/-! ### C9 -/

/-- Membership in the first-seen deduplication: exactly the members of the
input not already seen. -/
theorem dedupFirstAux_mem (l : List String) : ∀ (seen : List String) (y : String),
    y ∈ dedupFirstAux seen l ↔ (y ∈ l ∧ y ∉ seen) := by
  induction l with
  | nil =>
    intro seen y
    simp [dedupFirstAux]
  | cons x rest ih =>
    intro seen y
    simp only [dedupFirstAux]
    by_cases hx : x ∈ seen
    · rw [if_pos hx, ih]
      constructor
      · rintro ⟨h1, h2⟩
        exact ⟨List.mem_cons_of_mem _ h1, h2⟩
      · rintro ⟨h1, h2⟩
        rcases List.mem_cons.mp h1 with rfl | h1
        · exact absurd hx h2
        · exact ⟨h1, h2⟩
    · rw [if_neg hx]
      constructor
      · intro hmem
        rcases List.mem_cons.mp hmem with rfl | hmem
        · exact ⟨List.mem_cons_self _ _, hx⟩
        · obtain ⟨h1, h2⟩ := (ih (x :: seen) y).mp hmem
          exact ⟨List.mem_cons_of_mem _ h1, fun hs => h2 (List.mem_cons_of_mem _ hs)⟩
      · rintro ⟨h1, h2⟩
        rcases List.mem_cons.mp h1 with rfl | h1
        · exact List.mem_cons_self _ _
        · by_cases hyx : y = x
          · subst hyx
            exact List.mem_cons_self _ _
          · refine List.mem_cons_of_mem _ ((ih (x :: seen) y).mpr ⟨h1, ?_⟩)
            intro hs
            rcases List.mem_cons.mp hs with h | h
            · exact hyx h
            · exact h2 h

/-- The first-seen deduplication never repeats an element. -/
theorem dedupFirstAux_nodup (l : List String) : ∀ seen : List String,
    (dedupFirstAux seen l).Nodup := by
  induction l with
  | nil =>
    intro seen
    simp [dedupFirstAux]
  | cons x rest ih =>
    intro seen
    simp only [dedupFirstAux]
    by_cases hx : x ∈ seen
    · rw [if_pos hx]
      exact ih seen
    · rw [if_neg hx]
      refine List.nodup_cons.mpr ⟨?_, ih (x :: seen)⟩
      intro hmem
      exact ((dedupFirstAux_mem rest (x :: seen) x).mp hmem).2 (List.mem_cons_self _ _)

/-- C9: the feed link list has no duplicates and contains exactly the
trimmed RSS and Atom matches that pass the CAP-link filter; the concrete
two-link feed yields only its cap URL. -/
theorem claim_C9 :
    (∀ feedText : String,
      (parseFeed feedText).Nodup ∧
      ∀ l, l ∈ parseFeed feedText ↔
        (l ∈ ((rssScan feedText.toList.length feedText.toList).map jsTrim ++
              (atomScan feedText.toList.length feedText.toList).map jsTrim) ∧
          isCapAlertLink l = true)) ∧
    parseFeed "<link>https://x/cap/123</link><link>https://x/other</link>" =
      ["https://x/cap/123"] := by
  refine ⟨?_, by decide⟩
  intro feedText
  constructor
  · exact dedupFirstAux_nodup _ []
  · intro l
    rw [show parseFeed feedText = dedupFirst
        ((((rssScan feedText.toList.length feedText.toList).map jsTrim).filter isCapAlertLink) ++
         (((atomScan feedText.toList.length feedText.toList).map jsTrim).filter isCapAlertLink))
      from rfl, dedupFirst, dedupFirstAux_mem]
    simp only [List.mem_append, List.mem_filter, List.not_mem_nil, not_false_eq_true, and_true]
    tauto

/-- C9 witness: the membership characterization applied to the concrete
feed and its cap link. -/
theorem claim_C9_witness :
    "https://x/cap/123" ∈ parseFeed "<link>https://x/cap/123</link><link>https://x/other</link>" :=
  ((claim_C9.1 "<link>https://x/cap/123</link><link>https://x/other</link>").2
    "https://x/cap/123").mpr ⟨by decide, by decide⟩
